import Mathlib

/-!
Shallow embedding of the AdGuardHome client-storage registry
(`internal/client/storage.go` and the revision of the same file that adds the
runtime directory), together with the parts of the `client` package that the
storage layer calls into (`Index`, `Persistent`, `Runtime`), which are not
among the given sources and are therefore modelled from the specification.

Conventions of the embedding:
* IP addresses (`netip.Addr`) become `Addr`, a numeric address value plus an
  IPv6 zone string; subnets (`netip.Prefix`), client IDs and MACs become
  strings; UIDs become naturals.  Only decidable equality of these values
  matters to the registry, never their internal structure.
* Go methods that mutate the receiver become functions returning the new
  state; a method that also mutates an argument (`Storage.Update` writes to
  `n.UID`) additionally returns the argument's final value.
* Pointer aliasing, which the shallow-copy claims are about, is modelled
  separately by `RefStorage`, a heap of cells addressed by `Nat` references.
-/

/-- An IP address: an abstract numeric value plus an IPv6 zone suffix
(empty string = no zone).  Mirrors `netip.Addr` as the registry uses it:
compared for equality, and optionally compared with the zone stripped. -/
structure Addr where
  ip : Nat
  zone : String
deriving DecidableEq, Repr

/-- String form of an address, as used when a lookup identifier arrives as a
string (`Storage.Find`). -/
def Addr.toStr (a : Addr) : String :=
  if a.zone = "" then toString a.ip else toString a.ip ++ "%" ++ a.zone

/-- Modelled from the spec: a discovery source of runtime client information
("lease tables, neighbor-resolution tables, reverse-DNS, directory lookups",
plus the hosts file); the `Source` type itself is not among the sources. -/
inductive Source where
  | lease
  | neighbor
  | reverseDNS
  | directoryLookup
  | hostsFile
deriving DecidableEq, Repr

/-- Modelled from the spec: a runtime client record (`Runtime`, not among the
sources).  Following §9 of the spec, the per-source payloads are modelled as a
mapping from source tag to an opaque payload string, kept as an association
list with at most one entry per source. -/
structure Runtime where
  addr : Addr
  info : List (Source × String)
deriving DecidableEq, Repr

/-- Modelled from the spec: `Runtime.unset(src)` clears the given source's
payload ("unset source removes that map entry"). -/
def Runtime.unset (rc : Runtime) (src : Source) : Runtime :=
  { rc with info := rc.info.filter fun e => decide (e.1 ≠ src) }

/-- Modelled from the spec: `Runtime.isEmpty` — "is empty" is "map has zero
entries". -/
def Runtime.isEmpty (rc : Runtime) : Bool :=
  rc.info.isEmpty

/-- Modelled from the spec: a persistent client record (`Persistent`, not among
the sources).  The identifier fields are those the registry indexes; the
opaque configuration payload is irrelevant to indexing except for the outcome
of releasing the record's owned upstream resources, carried in `closeErr`
(`some msg` = `CloseUpstreams` fails with that message). -/
structure Persistent where
  uid : Nat
  name : String
  ips : List Addr
  subnets : List String
  clientIDs : List String
  mac : Option String
  closeErr : Option String
deriving DecidableEq, Repr

/-- The clash errors of the registry, each carrying the offending value and
the name of the existing holder exactly as the Go errors do. -/
inductive ClashErr where
  | duplicateUID (holder : String)
  | duplicateName (name : String)
  | duplicateIP (holder : String) (ip : Addr)
  | duplicateSubnet (holder : String) (subnet : String)
  | duplicateClientID (holder : String) (clientID : String)
  | duplicateMAC (holder : String) (mac : String)
deriving DecidableEq, Repr

/-- The errors `Storage.Add` and `Storage.Update` can return before
annotation: a clash, or the `fmt.Errorf("client %q is not found", name)` of
`Update`. -/
inductive StorageErr where
  | clash (e : ClashErr)
  | notFound (name : String)
deriving DecidableEq, Repr

/-- An error wrapped by `errors.Annotate(err, "... client: %w")`: the context
tag plus the wrapped error. -/
structure Annotated where
  ctx : String
  err : StorageErr
deriving DecidableEq, Repr

/-- Modelled from the spec: the identifier index over persistent records
(`Index`, not among the sources).  The spec describes parallel lookup maps
keyed by each identifier space; since every map is derived from the set of
stored records, the index is modelled extensionally as the list of stored
records, and each lookup searches that list. -/
structure Index where
  clients : List Persistent
deriving DecidableEq, Repr

/-- Modelled from the spec: `NewIndex` returns an empty index. -/
def NewIndex : Index := ⟨[]⟩

/-- Modelled from the spec: `Index.ClashesUID(p)` fails with `DuplicateUID`,
naming the existing holder, if another record already uses `p.UID`. -/
def Index.clashesUID (i : Index) (p : Persistent) : Option ClashErr :=
  (i.clients.find? fun r => decide (r.uid = p.uid)).map fun r =>
    ClashErr.duplicateUID r.name

/-- Modelled from the spec: the name check of `Index.Clashes`.  A record with
the same UID is not a clash partner — §4.2 requires that an update's clash
check run "against the *other* records", and `Storage.Update` calls `Clashes`
while the record being replaced is still indexed, so the skip must live in
`Clashes` itself. -/
def Index.nameClash (i : Index) (p : Persistent) : Option ClashErr :=
  (i.clients.find? fun r => decide (r.uid ≠ p.uid ∧ r.name = p.name)).map fun _ =>
    ClashErr.duplicateName p.name

/-- Modelled from the spec: the IP check of `Index.Clashes`; the first of
`p`'s IPs held by another record (different UID) wins. -/
def Index.ipClash (i : Index) (p : Persistent) : Option ClashErr :=
  p.ips.findSome? fun ip =>
    (i.clients.find? fun r => decide (r.uid ≠ p.uid ∧ ip ∈ r.ips)).map fun r =>
      ClashErr.duplicateIP r.name ip

/-- Modelled from the spec: the subnet check of `Index.Clashes`
(exact-prefix uniqueness). -/
def Index.subnetClash (i : Index) (p : Persistent) : Option ClashErr :=
  p.subnets.findSome? fun sn =>
    (i.clients.find? fun r => decide (r.uid ≠ p.uid ∧ sn ∈ r.subnets)).map fun r =>
      ClashErr.duplicateSubnet r.name sn

/-- Modelled from the spec: the client-id check of `Index.Clashes`. -/
def Index.clientIDClash (i : Index) (p : Persistent) : Option ClashErr :=
  p.clientIDs.findSome? fun cid =>
    (i.clients.find? fun r => decide (r.uid ≠ p.uid ∧ cid ∈ r.clientIDs)).map fun r =>
      ClashErr.duplicateClientID r.name cid

/-- Modelled from the spec: the MAC check of `Index.Clashes` (only when `p`
has a MAC). -/
def Index.macClash (i : Index) (p : Persistent) : Option ClashErr :=
  match p.mac with
  | none => none
  | some m =>
    (i.clients.find? fun r => decide (r.uid ≠ p.uid ∧ r.mac = some m)).map fun r =>
      ClashErr.duplicateMAC r.name m

/-- Modelled from the spec: `Index.Clashes(p)` — first offending field wins,
in priority order name, IP, subnet, client-id, MAC; does not mutate state. -/
def Index.clashes (i : Index) (p : Persistent) : Option ClashErr :=
  (i.nameClash p).or ((i.ipClash p).or ((i.subnetClash p).or
    ((i.clientIDClash p).or (i.macClash p))))

/-- Modelled from the spec: `Index.Add(p)` inserts the record into every map;
extensionally, appends it to the stored records.  Performs no checking. -/
def Index.add (i : Index) (p : Persistent) : Index :=
  ⟨i.clients ++ [p]⟩

/-- Modelled from the spec: `Index.Delete(p)` removes the record (identified
by its UID) from every map; extensionally, drops it from the stored
records. -/
def Index.delete (i : Index) (p : Persistent) : Index :=
  ⟨i.clients.filter fun r => decide (r.uid ≠ p.uid)⟩

/-- Modelled from the spec: `Index.FindByName` — exact lookup by name. -/
def Index.findByName (i : Index) (name : String) : Option Persistent :=
  i.clients.find? fun r => decide (r.name = name)

/-- Modelled from the spec: `Index.FindByMAC` — exact lookup by MAC. -/
def Index.findByMAC (i : Index) (mac : String) : Option Persistent :=
  i.clients.find? fun r => decide (r.mac = some mac)

/-- Modelled from the spec: `Index.Size()` — count of distinct records. -/
def Index.size (i : Index) : Nat :=
  i.clients.length

/-- `Storage` from the revision with the runtime directory: the persistent
index plus `runtimeIndex`, a map from IP address to runtime record, modelled
as an association list with at most one entry per address. -/
structure Storage where
  index : Index
  runtimeIndex : List (Addr × Runtime)
deriving DecidableEq, Repr

/-- `NewStorage()`: empty index, empty runtime directory. -/
def NewStorage : Storage :=
  { index := NewIndex, runtimeIndex := [] }

/-- `Storage.Add(p)`: run `ClashesUID`, then `Clashes`; on success insert into
the index; any error is annotated with the "adding client" context.  Returns
the Go error result together with the storage after the call. -/
def Storage.add (s : Storage) (p : Persistent) : Except Annotated Unit × Storage :=
  match s.index.clashesUID p with
  | some e => (.error ⟨"adding client", .clash e⟩, s)
  | none =>
    match s.index.clashes p with
    | some e => (.error ⟨"adding client", .clash e⟩, s)
    | none => (.ok (), { s with index := s.index.add p })

/-- `Storage.FindByName(name)`: passthrough to the index; the stored record is
returned as found, with no copy taken. -/
def Storage.findByName (s : Storage) (name : String) : Option Persistent :=
  s.index.findByName name

/-- `Storage.FindByMAC(mac)`: passthrough to the index, no copy taken. -/
def Storage.findByMAC (s : Storage) (mac : String) : Option Persistent :=
  s.index.findByMAC mac

/-- `Storage.RemoveByName(name)`: resolve by name; if found, call the
record's `CloseUpstreams` — on failure log the error and continue — then
delete it; return whether a record was found.  Returns the Go result, the
storage after the call, and the log lines emitted. -/
def Storage.removeByName (s : Storage) (name : String) :
    Bool × Storage × List String :=
  match s.index.findByName name with
  | none => (false, s, [])
  | some p =>
    (true, { s with index := s.index.delete p },
      match p.closeErr with
      | some msg => ["client storage: removing client " ++ p.name ++ ": " ++ msg]
      | none => [])

/-- `Storage.Update(name, n)`: resolve the stored record by name (not-found
error if absent); overwrite `n.UID` with the stored record's UID; run
`Clashes` on the modified `n`; on success delete the stored record and add
`n`.  Any error is annotated with the "updating client" context.  Returns the
Go error result, the storage after the call, and the caller's record `n` as
the call leaves it (the Go code mutates `n` through the pointer). -/
def Storage.update (s : Storage) (name : String) (n : Persistent) :
    Except Annotated Unit × Storage × Persistent :=
  match s.index.findByName name with
  | none => (.error ⟨"updating client", .notFound name⟩, s, n)
  | some stored =>
    match s.index.clashes { n with uid := stored.uid } with
    | some e => (.error ⟨"updating client", .clash e⟩, s, { n with uid := stored.uid })
    | none =>
      (.ok (),
        { s with index := (s.index.delete stored).add { n with uid := stored.uid } },
        { n with uid := stored.uid })

/-- `Storage.Size()`: lock-guarded passthrough to `Index.Size`. -/
def Storage.size (s : Storage) : Nat :=
  s.index.size

/-- `Storage.ClientRuntime(ip)`: the stored runtime record for `ip`, or none. -/
def Storage.clientRuntime (s : Storage) (ip : Addr) : Option Runtime :=
  (s.runtimeIndex.find? fun e => decide (e.1 = ip)).map (·.2)

/-- `Storage.AddRuntime(rc)`: `s.runtimeIndex[rc.Addr()] = rc` — the entry at
the record's address is set to `rc`, replacing any previous entry at that
address wholesale. -/
def Storage.addRuntime (s : Storage) (rc : Runtime) : Storage :=
  { s with
    runtimeIndex :=
      (s.runtimeIndex.filter fun e => decide (e.1 ≠ rc.addr)) ++ [(rc.addr, rc)] }

/-- `Storage.SizeRuntime()`: number of runtime entries. -/
def Storage.sizeRuntime (s : Storage) : Nat :=
  s.runtimeIndex.length

/-- `Storage.DeleteRuntime(ip)`: unconditional removal of the entry at `ip`. -/
def Storage.deleteRuntime (s : Storage) (ip : Addr) : Storage :=
  { s with runtimeIndex := s.runtimeIndex.filter fun e => decide (e.1 ≠ ip) }

/-- `Storage.DeleteBySource(src)`: for every runtime entry, clear `src`'s
payload (`rc.unset(src)` mutates the stored record in place); delete the
entries that are empty afterwards; return the number of entries deleted. -/
def Storage.deleteBySource (s : Storage) (src : Source) : Nat × Storage :=
  let cleared := s.runtimeIndex.map fun e => (e.1, e.2.unset src)
  let removed := cleared.filter fun e => e.2.isEmpty
  let kept := cleared.filter fun e => !e.2.isEmpty
  (removed.length, { s with runtimeIndex := kept })

/-- Two persistent records share an identifier value: equal UIDs, equal
names, a common IP, a common subnet, a common client-id, or the same present
MAC.  This is the relation the global-uniqueness invariant forbids between
distinct stored records. -/
def Persistent.sharesIdent (r1 r2 : Persistent) : Prop :=
  r1.uid = r2.uid ∨ r1.name = r2.name ∨ (∃ ip ∈ r1.ips, ip ∈ r2.ips) ∨
    (∃ sn ∈ r1.subnets, sn ∈ r2.subnets) ∨
    (∃ cid ∈ r1.clientIDs, cid ∈ r2.clientIDs) ∨
    (∃ m, r1.mac = some m ∧ r2.mac = some m)

instance (r1 r2 : Persistent) : Decidable (r1.sharesIdent r2) := by
  unfold Persistent.sharesIdent
  infer_instance

/-- A stored record `r` holds one of the non-UID identifier values of an
incoming record `p`: exactly the condition `Index.Clashes` reports (name, IP,
subnet, client-id, or MAC), ignoring the UID space. -/
def Persistent.clashesWith (r p : Persistent) : Prop :=
  r.name = p.name ∨ (∃ ip ∈ p.ips, ip ∈ r.ips) ∨ (∃ sn ∈ p.subnets, sn ∈ r.subnets) ∨
    (∃ cid ∈ p.clientIDs, cid ∈ r.clientIDs) ∨
    (∃ m, p.mac = some m ∧ r.mac = some m)

instance (r p : Persistent) : Decidable (r.clashesWith p) := by
  unfold Persistent.clashesWith
  infer_instance

/-- The storages reachable from `NewStorage` by sequences of successful
`Add` and `Update` calls and `RemoveByName` calls (a failed `Add`/`Update`
returns the storage unchanged, so restricting to successful ones loses no
state). -/
inductive Reachable : Storage → Prop where
  | init : Reachable NewStorage
  | addOk {s : Storage} {p : Persistent} :
      Reachable s → (s.add p).1 = .ok () → Reachable (s.add p).2
  | updateOk {s : Storage} {name : String} {n : Persistent} :
      Reachable s → (s.update name n).1 = .ok () → Reachable (s.update name n).2.1
  | remove {s : Storage} {name : String} :
      Reachable s → Reachable (s.removeByName name).2.1

/-- The storages reachable by any sequence of storage operations in which
every record handed to `AddRuntime` is non-empty. -/
inductive RuntimeReachable : Storage → Prop where
  | init : RuntimeReachable NewStorage
  | add {s : Storage} {p : Persistent} :
      RuntimeReachable s → RuntimeReachable (s.add p).2
  | update {s : Storage} {name : String} {n : Persistent} :
      RuntimeReachable s → RuntimeReachable (s.update name n).2.1
  | remove {s : Storage} {name : String} :
      RuntimeReachable s → RuntimeReachable (s.removeByName name).2.1
  | addRuntime {s : Storage} {rc : Runtime} :
      RuntimeReachable s → rc.isEmpty = false → RuntimeReachable (s.addRuntime rc)
  | deleteRuntime {s : Storage} {ip : Addr} :
      RuntimeReachable s → RuntimeReachable (s.deleteRuntime ip)
  | deleteBySource {s : Storage} {src : Source} :
      RuntimeReachable s → RuntimeReachable (s.deleteBySource src).2

/-!
The pointer-level view of the persistent store, used for the shallow-copy
claims.  Records live in heap cells addressed by `Nat` references; the index
holds references to the stored records.  `ShallowClone` allocates a fresh
cell holding a copy of the record's top-level value; a lookup that returns
the stored reference itself aliases registry-owned state.
-/

/-- The persistent store with an explicit heap: `cells` is the heap (a cell's
reference is its position), `index` the references of the stored records. -/
structure RefStorage where
  cells : List Persistent
  index : List Nat
deriving DecidableEq, Repr

/-- Dereference a heap cell. -/
def RefStorage.get (s : RefStorage) (r : Nat) : Option Persistent :=
  s.cells[r]?

/-- A caller mutates the record behind reference `r` — the model of writing
through a returned `*Persistent`. -/
def RefStorage.setRef (s : RefStorage) (r : Nat) (p : Persistent) : RefStorage :=
  { s with cells := s.cells.set r p }

/-- The records the store holds, read off the heap through the index. -/
def RefStorage.stored (s : RefStorage) : List Persistent :=
  s.index.filterMap fun r => s.cells[r]?

/-- Well-formedness of the heap model: every indexed reference is a live
cell. -/
def RefStorage.WF (s : RefStorage) : Prop :=
  ∀ r ∈ s.index, r < s.cells.length

/-- `Persistent.ShallowClone` at reference `r`: allocate a fresh cell holding
the record's value and return the fresh reference. -/
def RefStorage.clone (s : RefStorage) (r : Nat) : Option Nat × RefStorage :=
  match s.cells[r]? with
  | some p => (some s.cells.length, { s with cells := s.cells ++ [p] })
  | none => (none, s)

/-- Modelled from the spec: `Index.Find(id)` resolves a string identifier by
trying the identifier spaces in a fixed order — client ID, then string form
of an IP, then MAC (the order `Storage.Find` documents). -/
def RefStorage.findRefRaw (s : RefStorage) (id : String) : Option Nat :=
  match s.index.find? fun r =>
      match s.cells[r]? with
      | some p => decide (id ∈ p.clientIDs)
      | none => false with
  | some r => some r
  | none =>
    match s.index.find? fun r =>
        match s.cells[r]? with
        | some p => decide (∃ a ∈ p.ips, a.toStr = id)
        | none => false with
    | some r => some r
    | none =>
      s.index.find? fun r =>
        match s.cells[r]? with
        | some p => decide (p.mac = some id)
        | none => false

/-- `Storage.Find(id)` in the heap model: resolve through the index, then
return a `ShallowClone` of the match. -/
def RefStorage.findRef (s : RefStorage) (id : String) : Option Nat × RefStorage :=
  match s.findRefRaw id with
  | some r => s.clone r
  | none => (none, s)

/-- Modelled from the spec: `Index.FindByIPWithoutZone(ip)` — matches a
stored IP with the zone stripped from both sides. -/
def RefStorage.findByIPWithoutZoneRef (s : RefStorage) (ip : Addr) : Option Nat :=
  s.index.find? fun r =>
    match s.cells[r]? with
    | some p => decide (∃ a ∈ p.ips, a.ip = ip.ip)
    | none => false

/-- `Storage.FindLoose(ip, id)` in the heap model: `Find`, then the
zone-stripped IP fallback; each successful branch returns a `ShallowClone`. -/
def RefStorage.findLooseRef (s : RefStorage) (ip : Addr) (id : String) :
    Option Nat × RefStorage :=
  match s.findRefRaw id with
  | some r => s.clone r
  | none =>
    match s.findByIPWithoutZoneRef ip with
    | some r => s.clone r
    | none => (none, s)

/-- `Storage.FindByName(name)` in the heap model: the stored reference is
returned as found, with no clone taken. -/
def RefStorage.findByNameRef (s : RefStorage) (name : String) : Option Nat :=
  s.index.find? fun r =>
    match s.cells[r]? with
    | some p => decide (p.name = name)
    | none => false

/-- `Storage.FindByMAC(mac)` in the heap model: the stored reference is
returned as found, with no clone taken. -/
def RefStorage.findByMACRef (s : RefStorage) (mac : String) : Option Nat :=
  s.index.find? fun r =>
    match s.cells[r]? with
    | some p => decide (p.mac = some mac)
    | none => false

/-- The global uniqueness invariant of the persistent store: no identifier
value is shared between distinct stored records. -/
def Storage.uniqueIdents (s : Storage) : Prop :=
  s.index.clients.Pairwise fun r1 r2 => ¬ r1.sharesIdent r2

/-! ### Characterizations of the clash checks -/

theorem Index.clashesUID_eq_none {i : Index} {p : Persistent} :
    i.clashesUID p = none ↔ ∀ r ∈ i.clients, r.uid ≠ p.uid := by
  simp [Index.clashesUID]

theorem Index.nameClash_eq_none {i : Index} {p : Persistent} :
    i.nameClash p = none ↔ ∀ r ∈ i.clients, r.uid ≠ p.uid → r.name ≠ p.name := by
  simp [Index.nameClash, not_and]

theorem Index.ipClash_eq_none {i : Index} {p : Persistent} :
    i.ipClash p = none ↔ ∀ ip ∈ p.ips, ∀ r ∈ i.clients, r.uid ≠ p.uid → ip ∉ r.ips := by
  simp [Index.ipClash, not_and]

theorem Index.subnetClash_eq_none {i : Index} {p : Persistent} :
    i.subnetClash p = none ↔
      ∀ sn ∈ p.subnets, ∀ r ∈ i.clients, r.uid ≠ p.uid → sn ∉ r.subnets := by
  simp [Index.subnetClash, not_and]

theorem Index.clientIDClash_eq_none {i : Index} {p : Persistent} :
    i.clientIDClash p = none ↔
      ∀ cid ∈ p.clientIDs, ∀ r ∈ i.clients, r.uid ≠ p.uid → cid ∉ r.clientIDs := by
  simp [Index.clientIDClash, not_and]

theorem Index.macClash_eq_none {i : Index} {p : Persistent} :
    i.macClash p = none ↔
      ∀ m, p.mac = some m → ∀ r ∈ i.clients, r.uid ≠ p.uid → r.mac ≠ some m := by
  unfold Index.macClash
  cases hm : p.mac with
  | none => simp
  | some m => simp [not_and]

theorem Index.clashes_eq_none {i : Index} {p : Persistent} :
    i.clashes p = none ↔ ∀ r ∈ i.clients, r.uid ≠ p.uid → ¬ r.clashesWith p := by
  rw [Index.clashes]
  simp only [Option.or_eq_none, Index.nameClash_eq_none, Index.ipClash_eq_none,
    Index.subnetClash_eq_none, Index.clientIDClash_eq_none, Index.macClash_eq_none]
  constructor
  · rintro ⟨hn, hip, hsn, hcid, hmac⟩ r hr huid hcl
    rcases hcl with h | ⟨ip, h1, h2⟩ | ⟨sn, h1, h2⟩ | ⟨cid, h1, h2⟩ | ⟨m, h1, h2⟩
    · exact hn r hr huid h
    · exact hip ip h1 r hr huid h2
    · exact hsn sn h1 r hr huid h2
    · exact hcid cid h1 r hr huid h2
    · exact hmac m h1 r hr huid h2
  · intro h
    refine ⟨fun r hr huid hn => h r hr huid (Or.inl hn),
      fun ip hip r hr huid h2 => h r hr huid (Or.inr (Or.inl ⟨ip, hip, h2⟩)),
      fun sn hsn r hr huid h2 => h r hr huid (Or.inr (Or.inr (Or.inl ⟨sn, hsn, h2⟩))),
      fun cid hcid r hr huid h2 =>
        h r hr huid (Or.inr (Or.inr (Or.inr (Or.inl ⟨cid, hcid, h2⟩)))),
      fun m hm r hr huid h2 =>
        h r hr huid (Or.inr (Or.inr (Or.inr (Or.inr ⟨m, hm, h2⟩))))⟩

theorem Persistent.not_sharesIdent_of {a p : Persistent} (huid : a.uid ≠ p.uid)
    (h : ¬ a.clashesWith p) : ¬ a.sharesIdent p := by
  intro hsh
  rcases hsh with h1 | h2 | ⟨ip, hip1, hip2⟩ | ⟨sn, hs1, hs2⟩ | ⟨cid, hc1, hc2⟩ | ⟨m, hm1, hm2⟩
  · exact huid h1
  · exact h (Or.inl h2)
  · exact h (Or.inr (Or.inl ⟨ip, hip2, hip1⟩))
  · exact h (Or.inr (Or.inr (Or.inl ⟨sn, hs2, hs1⟩)))
  · exact h (Or.inr (Or.inr (Or.inr (Or.inl ⟨cid, hc2, hc1⟩))))
  · exact h (Or.inr (Or.inr (Or.inr (Or.inr ⟨m, hm2, hm1⟩))))

/-! ### Case analyses of the storage operations -/

theorem Storage.add_cases (s : Storage) (p : Persistent) :
    (s.index.clashesUID p = none ∧ s.index.clashes p = none ∧
      s.add p = (.ok (), { s with index := s.index.add p })) ∨
    (∃ e, s.add p = (.error ⟨"adding client", .clash e⟩, s)) := by
  unfold Storage.add
  split
  · next e heq => exact Or.inr ⟨e, rfl⟩
  · next heq =>
    split
    · next e heq2 => exact Or.inr ⟨e, rfl⟩
    · next heq2 => exact Or.inl ⟨heq, heq2, rfl⟩

theorem Storage.update_cases (s : Storage) (name : String) (n : Persistent) :
    (s.index.findByName name = none ∧
      s.update name n = (.error ⟨"updating client", .notFound name⟩, s, n)) ∨
    (∃ stored, s.index.findByName name = some stored ∧
      ((∃ e, s.index.clashes { n with uid := stored.uid } = some e ∧
          s.update name n =
            (.error ⟨"updating client", .clash e⟩, s, { n with uid := stored.uid })) ∨
        (s.index.clashes { n with uid := stored.uid } = none ∧
          s.update name n =
            (.ok (),
              { s with index := (s.index.delete stored).add { n with uid := stored.uid } },
              { n with uid := stored.uid })))) := by
  unfold Storage.update
  split
  · next heq => exact Or.inl ⟨heq, rfl⟩
  · next stored heq =>
    split
    · next e heq2 => exact Or.inr ⟨stored, heq, Or.inl ⟨e, heq2, rfl⟩⟩
    · next heq2 => exact Or.inr ⟨stored, heq, Or.inr ⟨heq2, rfl⟩⟩

theorem Storage.removeByName_cases (s : Storage) (name : String) :
    (s.index.findByName name = none ∧ s.removeByName name = (false, s, [])) ∨
    (∃ p, s.index.findByName name = some p ∧
      s.removeByName name =
        (true, { s with index := s.index.delete p },
          match p.closeErr with
          | some msg => ["client storage: removing client " ++ p.name ++ ": " ++ msg]
          | none => [])) := by
  unfold Storage.removeByName
  split
  · next heq => exact Or.inl ⟨heq, rfl⟩
  · next p heq => exact Or.inr ⟨p, heq, rfl⟩

/-! ### Frame lemmas: persistent operations leave the runtime directory alone -/

theorem Storage.add_runtimeIndex (s : Storage) (p : Persistent) :
    (s.add p).2.runtimeIndex = s.runtimeIndex := by
  rcases Storage.add_cases s p with ⟨_, _, h⟩ | ⟨e, h⟩ <;> rw [h]

theorem Storage.update_runtimeIndex (s : Storage) (name : String) (n : Persistent) :
    (s.update name n).2.1.runtimeIndex = s.runtimeIndex := by
  rcases Storage.update_cases s name n with ⟨_, h⟩ | ⟨stored, _, ⟨e, _, h⟩ | ⟨_, h⟩⟩ <;> rw [h]

theorem Storage.removeByName_runtimeIndex (s : Storage) (name : String) :
    (s.removeByName name).2.1.runtimeIndex = s.runtimeIndex := by
  rcases Storage.removeByName_cases s name with ⟨_, h⟩ | ⟨p, _, h⟩ <;> rw [h]

/-! ### Generic list lemmas -/

theorem find?_filter_of_imp {α : Type} (p q : α → Bool) (l : List α)
    (h : ∀ a, p a = true → q a = true) : (l.filter q).find? p = l.find? p := by
  induction l with
  | nil => rfl
  | cons x xs ih =>
    cases hqx : q x with
    | true =>
      rw [List.filter_cons_of_pos hqx, List.find?_cons, List.find?_cons]
      cases hp : p x
      · exact ih
      · rfl
    | false =>
      rw [List.filter_cons_of_neg (by simp [hqx]), List.find?_cons]
      cases hp : p x with
      | true => exact absurd (h x hp) (by simp [hqx])
      | false => exact ih

theorem eq_of_nodup_keys {α β : Type} {l : List (α × β)}
    (h : (l.map Prod.fst).Nodup) {e1 e2 : α × β}
    (h1 : e1 ∈ l) (h2 : e2 ∈ l) (hk : e1.1 = e2.1) : e1 = e2 := by
  induction l with
  | nil => cases h1
  | cons x xs ih =>
    rw [List.map_cons, List.nodup_cons] at h
    rcases List.mem_cons.mp h1 with rfl | h1' <;> rcases List.mem_cons.mp h2 with rfl | h2'
    · rfl
    · exact absurd (hk ▸ List.mem_map_of_mem Prod.fst h2') h.1
    · exact absurd (hk ▸ List.mem_map_of_mem Prod.fst h1') h.1
    · exact ih h.2 h1' h2'

/-! ### Runtime-record lemmas -/

theorem Runtime.unset_isEmpty_iff (rc : Runtime) (src : Source) :
    (rc.unset src).isEmpty = true ↔ ∀ x ∈ rc.info, x.1 = src := by
  simp [Runtime.unset, Runtime.isEmpty, List.filter_eq_nil_iff]

theorem Runtime.mem_unset_info {rc : Runtime} {src : Source} {x : Source × String} :
    x ∈ (rc.unset src).info ↔ x ∈ rc.info ∧ x.1 ≠ src := by
  simp [Runtime.unset, List.mem_filter]

/-! ### Claim C1 -/

/-- C1: Global uniqueness invariant of the persistent store: after any
sequence of successful `Add`, `Update` and `RemoveByName` operations, no two
distinct stored persistent records share an identifier — their UIDs differ,
their names differ, their IP, subnet and client-id sets are disjoint, and
their MACs, when present, differ. -/
theorem storage_global_uniqueness {s : Storage} (h : Reachable s) :
    s.uniqueIdents := by
  induction h with
  | init =>
    simp [Storage.uniqueIdents, NewStorage, NewIndex]
  | @addOk s p hr hok ih =>
    rcases Storage.add_cases s p with ⟨h1, h2, h3⟩ | ⟨e, h3⟩
    · rw [h3]
      unfold Storage.uniqueIdents at ih ⊢
      simp only [Index.add]
      rw [List.pairwise_append]
      refine ⟨ih, List.pairwise_singleton .., fun a ha b hb => ?_⟩
      rw [List.mem_singleton] at hb
      subst hb
      have huid := (Index.clashesUID_eq_none.mp h1) a ha
      exact Persistent.not_sharesIdent_of huid ((Index.clashes_eq_none.mp h2) a ha huid)
    · rw [h3] at hok
      simp at hok
  | @updateOk s name n hr hok ih =>
    rcases Storage.update_cases s name n with
      ⟨hf, h3⟩ | ⟨stored, hf, ⟨e, hcl, h3⟩ | ⟨hcl, h3⟩⟩
    · rw [h3] at hok
      simp at hok
    · rw [h3] at hok
      simp at hok
    · rw [h3]
      unfold Storage.uniqueIdents at ih ⊢
      simp only [Index.add, Index.delete]
      rw [List.pairwise_append]
      refine ⟨List.Pairwise.sublist (List.filter_sublist _) ih,
        List.pairwise_singleton .., fun a ha b hb => ?_⟩
      rw [List.mem_singleton] at hb
      subst hb
      rw [List.mem_filter] at ha
      have huid : a.uid ≠ stored.uid := of_decide_eq_true ha.2
      exact Persistent.not_sharesIdent_of huid
        ((Index.clashes_eq_none.mp hcl) a ha.1 huid)
  | @remove s name hr ih =>
    rcases Storage.removeByName_cases s name with ⟨hf, h3⟩ | ⟨p, hf, h3⟩
    · rw [h3]
      exact ih
    · rw [h3]
      unfold Storage.uniqueIdents at ih ⊢
      simp only [Index.delete]
      exact List.Pairwise.sublist (List.filter_sublist _) ih

/-- Witness for C1: the uniqueness invariant, instantiated at the concrete
state reached by one successful `Add` from the empty storage. -/
theorem storage_global_uniqueness_witness :
    ((NewStorage.add ⟨1, "A", [⟨1, ""⟩], [], [], none, none⟩).2).uniqueIdents :=
  storage_global_uniqueness
    (Reachable.addOk Reachable.init rfl)

/-! ### Claim C2 -/

/-- C2: adding a record whose UID is already used by a stored record fails
with the `DuplicateUID` error (never any other duplicate error), and every
failing `Add` carries the "adding client" context and leaves the store
unchanged — all-or-nothing. -/
theorem storage_add_duplicate_uid_and_frame (s : Storage) (p : Persistent) :
    ((∃ r ∈ s.index.clients, r.uid = p.uid) →
      ∃ holder,
        s.add p = (.error ⟨"adding client", .clash (.duplicateUID holder)⟩, s)) ∧
    (∀ e, (s.add p).1 = .error e → e.ctx = "adding client" ∧ (s.add p).2 = s) := by
  constructor
  · rintro ⟨r, hr, huid⟩
    have hsome : (s.index.clients.find? fun r => decide (r.uid = p.uid)).isSome := by
      rw [List.find?_isSome]
      exact ⟨r, hr, by simp [huid]⟩
    obtain ⟨r', hr'⟩ := Option.isSome_iff_exists.mp hsome
    refine ⟨r'.name, ?_⟩
    unfold Storage.add Index.clashesUID
    rw [hr']
    rfl
  · intro e he
    rcases Storage.add_cases s p with ⟨h1, h2, h3⟩ | ⟨e', h3⟩
    · rw [h3] at he
      simp at he
    · rw [h3] at he ⊢
      injection he with h
      subst h
      exact ⟨rfl, rfl⟩

/-- Witness for C2: a second record reusing UID 1 is rejected with a
`DuplicateUID` error and the storage is left exactly as it was. -/
theorem storage_add_duplicate_uid_witness :
    (((NewStorage.add ⟨1, "A", [], [], [], none, none⟩).2).add
        ⟨1, "B", [], [], [], none, none⟩).2 =
      (NewStorage.add ⟨1, "A", [], [], [], none, none⟩).2 := by
  obtain ⟨holder, h⟩ :=
    (storage_add_duplicate_uid_and_frame
        (NewStorage.add ⟨1, "A", [], [], [], none, none⟩).2
        ⟨1, "B", [], [], [], none, none⟩).1
      ⟨⟨1, "A", [], [], [], none, none⟩, by decide, rfl⟩
  rw [h]

/-! ### Claim C3 -/

/-- C3: `Update` with a name no stored record has fails with the not-found
error, and every failing `Update` (not-found or clash) leaves the persistent
store unchanged — same `Size`, same stored records. -/
theorem storage_update_notFound_and_frame (s : Storage) (name : String)
    (n : Persistent) :
    (s.index.findByName name = none →
      s.update name n = (.error ⟨"updating client", .notFound name⟩, s, n)) ∧
    (∀ e, (s.update name n).1 = .error e →
      (s.update name n).2.1 = s ∧ (s.update name n).2.1.size = s.size ∧
        (s.update name n).2.1.index.clients = s.index.clients) := by
  constructor
  · intro hf
    unfold Storage.update
    rw [hf]
  · intro e he
    rcases Storage.update_cases s name n with
      ⟨hf, h3⟩ | ⟨stored, hf, ⟨e', hcl, h3⟩ | ⟨hcl, h3⟩⟩
    · rw [h3]
      exact ⟨rfl, rfl, rfl⟩
    · rw [h3]
      exact ⟨rfl, rfl, rfl⟩
    · rw [h3] at he
      simp at he

/-- Witness for C3: updating the unknown name "X" in the empty storage fails
with the not-found error and changes nothing. -/
theorem storage_update_notFound_witness :
    NewStorage.update "X" ⟨5, "N", [], [], [], none, none⟩ =
      (.error ⟨"updating client", .notFound "X"⟩, NewStorage,
        ⟨5, "N", [], [], [], none, none⟩) :=
  (storage_update_notFound_and_frame _ _ _).1 rfl

/-! ### Claim C4 -/

/-- C4: when `Update` resolves a stored record by name, the incoming record
receives the stored record's UID (an update never changes a client's UID);
the clash check runs only against records with a different UID, so an update
whose identifiers collide only with the record being replaced succeeds; and
on success the old record is deleted and the new one added. -/
theorem storage_update_found_spec (s : Storage) (name : String)
    (n stored : Persistent) (hf : s.index.findByName name = some stored) :
    ((s.update name n).2.2 = { n with uid := stored.uid }) ∧
    ((∀ r ∈ s.index.clients, r.uid ≠ stored.uid →
        ¬ r.clashesWith { n with uid := stored.uid }) →
      s.update name n =
        (.ok (),
          { s with index := (s.index.delete stored).add { n with uid := stored.uid } },
          { n with uid := stored.uid })) ∧
    ((s.update name n).1 = .ok () →
      (s.update name n).2.1.index.clients =
        (s.index.clients.filter fun r => decide (r.uid ≠ stored.uid)) ++
          [{ n with uid := stored.uid }]) := by
  have hnone : ∀ hno : ∀ r ∈ s.index.clients, r.uid ≠ stored.uid →
      ¬ r.clashesWith { n with uid := stored.uid },
      s.index.clashes { n with uid := stored.uid } = none :=
    fun hno => Index.clashes_eq_none.mpr fun r hr huid => hno r hr huid
  refine ⟨?_, ?_, ?_⟩
  · rcases Storage.update_cases s name n with
      ⟨hf', h3⟩ | ⟨stored', hf', ⟨e', hcl, h3⟩ | ⟨hcl, h3⟩⟩
    · rw [hf] at hf'
      cases hf'
    · rw [hf] at hf'
      injection hf' with h
      subst h
      rw [h3]
    · rw [hf] at hf'
      injection hf' with h
      subst h
      rw [h3]
  · intro hno
    rcases Storage.update_cases s name n with
      ⟨hf', h3⟩ | ⟨stored', hf', ⟨e', hcl, h3⟩ | ⟨hcl, h3⟩⟩
    · rw [hf] at hf'
      cases hf'
    · rw [hf] at hf'
      injection hf' with h
      subst h
      rw [hnone hno] at hcl
      cases hcl
    · rw [hf] at hf'
      injection hf' with h
      subst h
      exact h3
  · intro hok
    rcases Storage.update_cases s name n with
      ⟨hf', h3⟩ | ⟨stored', hf', ⟨e', hcl, h3⟩ | ⟨hcl, h3⟩⟩
    · rw [hf] at hf'
      cases hf'
    · rw [h3] at hok
      simp at hok
    · rw [hf] at hf'
      injection hf' with h
      subst h
      rw [h3]
      rfl

/-- Witness for C4: the spec's example — client "C" holds subnet
`10.0.0.0/24`; re-submitting the same subnet under the same name succeeds
because the record no longer clashes against itself, and the incoming record
receives the stored UID 1. -/
theorem storage_update_found_witness :
    ((NewStorage.add ⟨1, "C", [], ["10.0.0.0/24"], [], none, none⟩).2).update "C"
        ⟨99, "C", [], ["10.0.0.0/24"], [], none, none⟩ =
      (.ok (),
        { (NewStorage.add ⟨1, "C", [], ["10.0.0.0/24"], [], none, none⟩).2 with
          index :=
            (((NewStorage.add ⟨1, "C", [], ["10.0.0.0/24"], [], none, none⟩).2).index.delete
              ⟨1, "C", [], ["10.0.0.0/24"], [], none, none⟩).add
              ⟨1, "C", [], ["10.0.0.0/24"], [], none, none⟩ },
        ⟨1, "C", [], ["10.0.0.0/24"], [], none, none⟩) :=
  (storage_update_found_spec
      (NewStorage.add ⟨1, "C", [], ["10.0.0.0/24"], [], none, none⟩).2 "C"
      ⟨99, "C", [], ["10.0.0.0/24"], [], none, none⟩
      ⟨1, "C", [], ["10.0.0.0/24"], [], none, none⟩ (by decide)).2.1 (by decide)

/-! ### Claim C5 -/

/-- Counterexample to C5 as stated: `AddRuntime` performs no emptiness check,
so adding the empty runtime record for address 1 leaves an empty record
present in the directory, violating the claimed membership invariant. -/
theorem addRuntime_empty_record_counterexample :
    (NewStorage.addRuntime ⟨⟨1, ""⟩, []⟩).clientRuntime ⟨1, ""⟩ =
        some ⟨⟨1, ""⟩, []⟩ ∧
      Runtime.isEmpty ⟨⟨1, ""⟩, []⟩ = true := by
  decide

/-- C5 (amended): in every state reachable by storage operations in which
every record handed to `AddRuntime` is non-empty, each record present in the
runtime directory is non-empty.  (`AddRuntime` itself does not guard against
empty records, so the restriction on added records is necessary.) -/
theorem runtime_directory_nonEmpty {s : Storage} (h : RuntimeReachable s) :
    ∀ e ∈ s.runtimeIndex, e.2.isEmpty = false := by
  induction h with
  | init =>
    intro e he
    simp [NewStorage] at he
  | @add s p hr ih =>
    rw [Storage.add_runtimeIndex]
    exact ih
  | @update s name n hr ih =>
    rw [Storage.update_runtimeIndex]
    exact ih
  | @remove s name hr ih =>
    rw [Storage.removeByName_runtimeIndex]
    exact ih
  | @addRuntime s rc hr hne ih =>
    intro e he
    simp only [Storage.addRuntime] at he
    rcases List.mem_append.mp he with h1 | h1
    · exact ih e (List.mem_filter.mp h1).1
    · rw [List.mem_singleton] at h1
      subst h1
      exact hne
  | @deleteRuntime s ip hr ih =>
    intro e he
    simp only [Storage.deleteRuntime] at he
    exact ih e (List.mem_filter.mp he).1
  | @deleteBySource s src hr ih =>
    intro e he
    simp only [Storage.deleteBySource] at he
    have h2 := (List.mem_filter.mp he).2
    simpa using h2

/-- Witness for C5 (amended): after adding one non-empty runtime record, the
record present in the directory is non-empty. -/
theorem runtime_directory_nonEmpty_witness :
    Runtime.isEmpty ⟨⟨1, ""⟩, [(Source.lease, "host")]⟩ = false :=
  runtime_directory_nonEmpty
    (@RuntimeReachable.addRuntime NewStorage ⟨⟨1, ""⟩, [(Source.lease, "host")]⟩
      RuntimeReachable.init rfl)
    (⟨1, ""⟩, ⟨⟨1, ""⟩, [(Source.lease, "host")]⟩) (by decide)

/-! ### Claim C6 -/

/-- Counterexample to C6 as stated: `AddRuntime` does not merge.  Address 1
first holds lease-sourced payload "h1"; adding a record for the same address
carrying only neighbor-sourced payload "h2" leaves a record without the
lease contribution — the other source's payload is discarded, not kept. -/
theorem addRuntime_no_merge_counterexample :
    ((NewStorage.addRuntime ⟨⟨1, ""⟩, [(Source.lease, "h1")]⟩).addRuntime
        ⟨⟨1, ""⟩, [(Source.neighbor, "h2")]⟩).clientRuntime ⟨1, ""⟩ =
      some ⟨⟨1, ""⟩, [(Source.neighbor, "h2")]⟩ := by
  decide

/-- C6 (amended): `Storage.AddRuntime` replaces the entry at the incoming
record's address wholesale with the incoming record — contributions other
sources previously stored at that address are discarded, not merged — and
entries at every other address are untouched. -/
theorem addRuntime_replaces (s : Storage) (rc : Runtime) :
    (s.addRuntime rc).clientRuntime rc.addr = some rc ∧
    ∀ ip, ip ≠ rc.addr → (s.addRuntime rc).clientRuntime ip = s.clientRuntime ip := by
  constructor
  · unfold Storage.addRuntime Storage.clientRuntime
    rw [List.find?_append]
    have h1 : ((s.runtimeIndex.filter fun e => decide (e.1 ≠ rc.addr)).find?
        fun e => decide (e.1 = rc.addr)) = none := by
      rw [List.find?_eq_none]
      intro e he
      have h2 := (List.mem_filter.mp he).2
      simp at h2 ⊢
      exact h2
    rw [h1]
    simp
  · intro ip hip
    unfold Storage.addRuntime Storage.clientRuntime
    rw [List.find?_append]
    have h2 : (([(rc.addr, rc)]).find? fun e => decide (e.1 = ip)) = none := by
      simp
      exact fun h => absurd h.symm hip
    rw [h2, find?_filter_of_imp]
    · simp
    · intro a ha
      simp at ha ⊢
      rw [ha]
      exact hip

/-- Witness for C6 (amended): adding a record for address 1 leaves the entry
at address 2 exactly as it was. -/
theorem addRuntime_replaces_witness :
    ((NewStorage.addRuntime ⟨⟨2, ""⟩, [(Source.lease, "x")]⟩).addRuntime
        ⟨⟨1, ""⟩, [(Source.neighbor, "y")]⟩).clientRuntime ⟨2, ""⟩ =
      (NewStorage.addRuntime ⟨⟨2, ""⟩, [(Source.lease, "x")]⟩).clientRuntime ⟨2, ""⟩ :=
  (addRuntime_replaces (NewStorage.addRuntime ⟨⟨2, ""⟩, [(Source.lease, "x")]⟩)
      ⟨⟨1, ""⟩, [(Source.neighbor, "y")]⟩).2 ⟨2, ""⟩ (by decide)

/-! ### Claim C7 -/

theorem length_filter_not_add {α : Type} (p : α → Bool) (l : List α) :
    (l.filter fun a => !p a).length + (l.filter p).length = l.length := by
  induction l with
  | nil => rfl
  | cons x xs ih =>
    cases hx : p x <;> simp [List.filter_cons, hx, ← ih] <;> omega

/-- `DeleteBySource` leaves exactly the cleared entries that are non-empty. -/
theorem deleteBySource_runtimeIndex (s : Storage) (src : Source) :
    (s.deleteBySource src).2.runtimeIndex =
      (s.runtimeIndex.map fun e => (e.1, e.2.unset src)).filter
        fun e => !e.2.isEmpty := rfl

/-- `DeleteBySource` returns the number of cleared entries that are empty. -/
theorem deleteBySource_count (s : Storage) (src : Source) :
    (s.deleteBySource src).1 =
      ((s.runtimeIndex.map fun e => (e.1, e.2.unset src)).filter
        fun e => e.2.isEmpty).length := rfl

theorem unset_isEmpty_eq_decide (rc : Runtime) (src : Source) :
    (rc.unset src).isEmpty = decide (∀ x ∈ rc.info, x.1 = src) := by
  cases hd : decide (∀ x ∈ rc.info, x.1 = src) with
  | true => exact (Runtime.unset_isEmpty_iff rc src).mpr (of_decide_eq_true hd)
  | false =>
    cases hie : (rc.unset src).isEmpty with
    | false => rfl
    | true =>
      exact absurd (decide_eq_true ((Runtime.unset_isEmpty_iff rc src).mp hie))
        (by simp [hd])

/-- C7: `DeleteBySource(src)` clears `src`'s payload from every entry, keeps
(with `src`'s payload cleared) every entry that still has another live
source, removes exactly the entries whose payload came only from `src`, and
returns the number of entries removed — not the number of entries whose
payload was merely cleared. -/
theorem deleteBySource_spec (s : Storage) (src : Source)
    (hkeys : (s.runtimeIndex.map Prod.fst).Nodup) :
    (∀ e ∈ s.runtimeIndex, (∃ x ∈ e.2.info, x.1 ≠ src) →
        (e.1, e.2.unset src) ∈ (s.deleteBySource src).2.runtimeIndex) ∧
    (∀ e ∈ s.runtimeIndex, (∀ x ∈ e.2.info, x.1 = src) →
        (s.deleteBySource src).2.clientRuntime e.1 = none) ∧
    (∀ e ∈ (s.deleteBySource src).2.runtimeIndex, ∀ x ∈ e.2.info, x.1 ≠ src) ∧
    ((s.deleteBySource src).2.sizeRuntime + (s.deleteBySource src).1 =
      s.sizeRuntime) ∧
    ((s.deleteBySource src).1 =
      (s.runtimeIndex.filter fun e => decide (∀ x ∈ e.2.info, x.1 = src)).length) := by
  refine ⟨?_, ?_, ?_, ?_, ?_⟩
  · intro e he hx
    rw [deleteBySource_runtimeIndex]
    refine List.mem_filter.mpr ⟨List.mem_map_of_mem _ he, ?_⟩
    rcases hx with ⟨x, hx1, hx2⟩
    have hie : (e.2.unset src).isEmpty = false := by
      cases hie : (e.2.unset src).isEmpty with
      | false => rfl
      | true => exact absurd ((Runtime.unset_isEmpty_iff _ _).mp hie x hx1) hx2
    simp [hie]
  · intro e he hall
    unfold Storage.clientRuntime
    rw [deleteBySource_runtimeIndex, Option.map_eq_none', List.find?_eq_none]
    intro d hd
    rcases List.mem_filter.mp hd with ⟨hd1, hd2⟩
    rcases List.mem_map.mp hd1 with ⟨e0, he0, rfl⟩
    simp only [decide_eq_true_eq]
    intro hkey
    have heq : e0 = e := eq_of_nodup_keys hkeys he0 he hkey
    subst heq
    have hie : (e0.2.unset src).isEmpty = true :=
      (Runtime.unset_isEmpty_iff _ _).mpr hall
    simp [hie] at hd2
  · intro e he x hx
    rw [deleteBySource_runtimeIndex] at he
    rcases List.mem_filter.mp he with ⟨h1, _⟩
    rcases List.mem_map.mp h1 with ⟨e0, he0, rfl⟩
    exact (Runtime.mem_unset_info.mp hx).2
  · unfold Storage.sizeRuntime
    rw [deleteBySource_runtimeIndex, deleteBySource_count, length_filter_not_add,
      List.length_map]
  · rw [deleteBySource_count, List.filter_map, List.length_map]
    congr 1
    apply List.filter_congr
    intro e he
    exact unset_isEmpty_eq_decide e.2 src

/-- Witness for C7: concretely, clearing the lease source from a directory
with entries for addresses 1 (lease only) and 2 (lease and neighbor) keeps
one entry and removes one, and the returned count plus the remaining size
equals the old size. -/
theorem deleteBySource_spec_witness :
    (((NewStorage.addRuntime ⟨⟨1, ""⟩, [(Source.lease, "a")]⟩).addRuntime
          ⟨⟨2, ""⟩, [(Source.lease, "b"), (Source.neighbor, "c")]⟩).deleteBySource
        Source.lease).2.sizeRuntime +
      (((NewStorage.addRuntime ⟨⟨1, ""⟩, [(Source.lease, "a")]⟩).addRuntime
          ⟨⟨2, ""⟩, [(Source.lease, "b"), (Source.neighbor, "c")]⟩).deleteBySource
        Source.lease).1 =
      ((NewStorage.addRuntime ⟨⟨1, ""⟩, [(Source.lease, "a")]⟩).addRuntime
        ⟨⟨2, ""⟩, [(Source.lease, "b"), (Source.neighbor, "c")]⟩).sizeRuntime :=
  (deleteBySource_spec
    ((NewStorage.addRuntime ⟨⟨1, ""⟩, [(Source.lease, "a")]⟩).addRuntime
      ⟨⟨2, ""⟩, [(Source.lease, "b"), (Source.neighbor, "c")]⟩)
    Source.lease (by decide)).2.2.2.1

/-! ### Claim C8 -/

/-- C8: `RemoveByName` returns whether a record with the given name existed
and deletes it if so; the found record's owned upstream resources are
released before deletion, and a failure of that release is logged and
swallowed rather than propagated — the removal still completes and the call
still returns true. -/
theorem removeByName_spec (s : Storage) (name : String) :
    (s.index.findByName name = none → s.removeByName name = (false, s, [])) ∧
    (∀ p, s.index.findByName name = some p →
      (s.removeByName name).1 = true ∧
      (s.removeByName name).2.1.index.clients =
        s.index.clients.filter (fun r => decide (r.uid ≠ p.uid)) ∧
      (∀ msg, p.closeErr = some msg →
        (s.removeByName name).2.2 =
          ["client storage: removing client " ++ p.name ++ ": " ++ msg])) := by
  constructor
  · intro hf
    unfold Storage.removeByName
    rw [hf]
  · intro p hf
    rcases Storage.removeByName_cases s name with ⟨hf', h3⟩ | ⟨p', hf', h3⟩
    · rw [hf] at hf'
      cases hf'
    · rw [hf] at hf'
      injection hf' with h
      subst h
      refine ⟨?_, ?_, ?_⟩
      · rw [h3]
      · rw [h3]
        rfl
      · intro msg hmsg
        rw [h3]
        simp only [hmsg]

/-- Witness for C8: removing client "A", whose upstream release fails with
"fail", still returns true and the failure shows up only in the log. -/
theorem removeByName_spec_witness :
    (((NewStorage.add ⟨1, "A", [], [], [], none, some "fail"⟩).2).removeByName
        "A").1 = true ∧
      (((NewStorage.add ⟨1, "A", [], [], [], none, some "fail"⟩).2).removeByName
          "A").2.2 =
        ["client storage: removing client " ++ "A" ++ ": " ++ "fail"] := by
  have h :=
    (removeByName_spec (NewStorage.add ⟨1, "A", [], [], [], none, some "fail"⟩).2
        "A").2 ⟨1, "A", [], [], [], none, some "fail"⟩ (by decide)
  exact ⟨h.1, h.2.2 "fail" rfl⟩

/-! ### Claim C9 -/

/-- Counterexample to C9 as stated: `FindByName` hands back the stored
record itself, not an independent copy — mutating the record behind the
returned reference changes the store's indexed state. -/
theorem findByName_aliases_counterexample :
    (RefStorage.findByNameRef ⟨[⟨1, "A", [], [], [], none, none⟩], [0]⟩ "A" =
        some 0) ∧
      ((RefStorage.setRef ⟨[⟨1, "A", [], [], [], none, none⟩], [0]⟩ 0
            ⟨1, "B", [], [], [], none, none⟩).stored ≠
        (⟨[⟨1, "A", [], [], [], none, none⟩], [0]⟩ : RefStorage).stored) := by
  decide

theorem RefStorage.clone_spec {s : RefStorage} (hwf : s.WF) {r r' : Nat}
    {s' : RefStorage} (h : s.clone r = (some r', s')) :
    r' ∉ s.index ∧ s'.index = s.index ∧ s'.stored = s.stored ∧
      ∀ p, (s'.setRef r' p).stored = s.stored := by
  unfold RefStorage.clone at h
  split at h
  · next q heq =>
    injection h with h1 h2
    injection h1 with h1
    subst h1 h2
    refine ⟨?_, rfl, ?_, ?_⟩
    · intro hmem
      exact absurd (hwf _ hmem) (lt_irrefl _)
    · unfold RefStorage.stored
      apply List.filterMap_congr
      intro r0 hr0
      exact List.getElem?_append_left (hwf r0 hr0)
    · intro p
      unfold RefStorage.setRef RefStorage.stored
      apply List.filterMap_congr
      intro r0 hr0
      have hlt := hwf r0 hr0
      rw [List.getElem?_set_ne (Nat.ne_of_gt hlt)]
      exact List.getElem?_append_left hlt
  · next heq =>
    injection h with h1 h2
    cases h1

/-- C9 (amended): among the storage lookups, `Find` and `FindLoose` return
independent shallow copies — the reference they return is fresh, outside the
index, and however the caller mutates the record behind it the stored
records are unchanged — while `FindByName` and `FindByMAC` return the stored
reference itself. -/
theorem lookups_copy_semantics (s : RefStorage) (hwf : s.WF) :
    (∀ id r' s', s.findRef id = (some r', s') →
      r' ∉ s.index ∧ s'.index = s.index ∧ s'.stored = s.stored ∧
        ∀ p, (s'.setRef r' p).stored = s.stored) ∧
    (∀ ip id r' s', s.findLooseRef ip id = (some r', s') →
      r' ∉ s.index ∧ s'.index = s.index ∧ s'.stored = s.stored ∧
        ∀ p, (s'.setRef r' p).stored = s.stored) ∧
    (∀ name r, s.findByNameRef name = some r → r ∈ s.index) ∧
    (∀ mac r, s.findByMACRef mac = some r → r ∈ s.index) := by
  refine ⟨?_, ?_, ?_, ?_⟩
  · intro id r' s' h
    unfold RefStorage.findRef at h
    split at h
    · next r0 heq => exact RefStorage.clone_spec hwf h
    · next heq =>
      injection h with h1 h2
      cases h1
  · intro ip id r' s' h
    unfold RefStorage.findLooseRef at h
    split at h
    · next r0 heq => exact RefStorage.clone_spec hwf h
    · next heq =>
      split at h
      · next r0 heq2 => exact RefStorage.clone_spec hwf h
      · next heq2 =>
        injection h with h1 h2
        cases h1
  · intro name r h
    exact List.mem_of_find?_eq_some h
  · intro mac r h
    exact List.mem_of_find?_eq_some h

/-- Witness for C9 (amended): `Find` by client-id "cid" clones the match
into fresh cell 1; overwriting that cell leaves the stored records exactly
as they were. -/
theorem lookups_copy_semantics_witness :
    (RefStorage.setRef
        ⟨[⟨1, "A", [], [], ["cid"], none, none⟩,
          ⟨1, "A", [], [], ["cid"], none, none⟩], [0]⟩ 1
        ⟨2, "B", [], [], [], none, none⟩).stored =
      (⟨[⟨1, "A", [], [], ["cid"], none, none⟩], [0]⟩ : RefStorage).stored :=
  ((lookups_copy_semantics ⟨[⟨1, "A", [], [], ["cid"], none, none⟩], [0]⟩
        (by unfold RefStorage.WF; decide)).1 "cid" 1
      ⟨[⟨1, "A", [], [], ["cid"], none, none⟩,
        ⟨1, "A", [], [], ["cid"], none, none⟩], [0]⟩ (by decide)).2.2.2
    ⟨2, "B", [], [], [], none, none⟩

/-! ### Claim C10 -/

/-- C10: `Update` mutates its caller's argument in place — once the stored
record is resolved by name, the argument's UID is overwritten with the
stored record's UID, so even when the call returns a clash error (leaving
the store itself unchanged) the caller's record carries the stored UID. -/
theorem update_mutates_argument (s : Storage) (name : String)
    (n stored : Persistent) (hf : s.index.findByName name = some stored) :
    ((s.update name n).2.2 = { n with uid := stored.uid }) ∧
    (∀ e, (s.update name n).1 = .error e →
      (s.update name n).2.1 = s ∧ (s.update name n).2.2.uid = stored.uid) := by
  constructor
  · rcases Storage.update_cases s name n with
      ⟨hf', h3⟩ | ⟨stored', hf', ⟨e', hcl, h3⟩ | ⟨hcl, h3⟩⟩
    · rw [hf] at hf'
      cases hf'
    · rw [hf] at hf'
      injection hf' with h
      subst h
      rw [h3]
    · rw [hf] at hf'
      injection hf' with h
      subst h
      rw [h3]
  · intro e he
    rcases Storage.update_cases s name n with
      ⟨hf', h3⟩ | ⟨stored', hf', ⟨e', hcl, h3⟩ | ⟨hcl, h3⟩⟩
    · rw [hf] at hf'
      cases hf'
    · rw [hf] at hf'
      injection hf' with h
      subst h
      rw [h3]
      exact ⟨rfl, rfl⟩
    · rw [h3] at he
      simp at he

/-- Witness for C10: updating client "A" with a record that collides with
client "B"'s IP fails with a clash error, leaves the store unchanged, and
still leaves the caller's record carrying A's UID 1 instead of its own 99. -/
theorem update_mutates_argument_witness :
    ((((NewStorage.add ⟨1, "A", [⟨1, ""⟩], [], [], none, none⟩).2).add
          ⟨2, "B", [⟨2, ""⟩], [], [], none, none⟩).2.update "A"
        ⟨99, "A", [⟨2, ""⟩], [], [], none, none⟩).2.2 =
        ⟨1, "A", [⟨2, ""⟩], [], [], none, none⟩ ∧
      ((((NewStorage.add ⟨1, "A", [⟨1, ""⟩], [], [], none, none⟩).2).add
            ⟨2, "B", [⟨2, ""⟩], [], [], none, none⟩).2.update "A"
          ⟨99, "A", [⟨2, ""⟩], [], [], none, none⟩).2.1 =
        (((NewStorage.add ⟨1, "A", [⟨1, ""⟩], [], [], none, none⟩).2).add
          ⟨2, "B", [⟨2, ""⟩], [], [], none, none⟩).2 := by
  have h :=
    update_mutates_argument
      (((NewStorage.add ⟨1, "A", [⟨1, ""⟩], [], [], none, none⟩).2).add
        ⟨2, "B", [⟨2, ""⟩], [], [], none, none⟩).2 "A"
      ⟨99, "A", [⟨2, ""⟩], [], [], none, none⟩
      ⟨1, "A", [⟨1, ""⟩], [], [], none, none⟩ (by decide)
  exact ⟨h.1, (h.2 ⟨"updating client", .clash (.duplicateIP "B" ⟨2, ""⟩)⟩
    rfl).1⟩
